import Mathlib

/-!
Shallow embedding of the request-admission / resource-governance layer of
the `dish-list` repository (`protection.py`, counter entities from
`models.py`).

Modelling choices, used consistently below:

* Time is UTC in integer microseconds since the epoch (`Nat`), matching the
  microsecond resolution of Python's `datetime.utcnow()`.
* SQLAlchemy money columns (`Numeric(10,4)`) and Python `Decimal` values are
  modelled as exact rationals (`ℚ`); `Decimal` addition is exact, and
  `Decimal(str(x))` of a decimal literal round-trips exactly.
* Persistent tables are lists of rows; a query `.first()` is `List.find?`,
  a row deletion is `List.eraseP`.  `db.session.commit()` persists pending
  changes; a code path that returns without committing leaves the persistent
  state unchanged (Flask-SQLAlchemy rolls back the session at request end),
  which is how the deny paths of `check_rate_limit` are embedded.
* Configuration values are parameters, with the source's defaults provided
  as separate definitions.
-/

namespace DishList

/-- One hour, in microseconds (`timedelta(hours=1)`). -/
def HOUR_US : Nat := 3600000000

/-- One second, in microseconds. -/
def SECOND_US : Nat := 1000000

/-- Truncate a timestamp down to the containing hour boundary
(`datetime.utcnow().replace(minute=0, second=0, microsecond=0)`). -/
def truncHour (t : Nat) : Nat := HOUR_US * (t / HOUR_US)

/-- Row of the `rate_limits` table (`models.RateLimit`). -/
structure RateWindow where
  ip_address : String
  endpoint : String
  window_start : Nat
  request_count : Nat
deriving Repr, DecidableEq

/-- Rate limiter configuration: `RATE_LIMIT_ENABLED`, `RATE_LIMIT_PER_HOUR`. -/
structure RateConfig where
  enabled : Bool
  limit : Nat
deriving Repr, DecidableEq

/-- Source defaults: enabled, 20 requests per hour. -/
def defaultRateConfig : RateConfig := ⟨true, 20⟩

/-- The `(allowed, retry_after_seconds, remaining)` triple returned by
`check_rate_limit`. -/
structure RateResult where
  allowed : Bool
  retry_after : Nat
  remaining : Nat
deriving Repr, DecidableEq

/-- The filter of the `filter_by(ip_address=…, endpoint=…, window_start=…)`
lookup for the current window. -/
def windowKeyMatches (ip ep : String) (w : Nat) (r : RateWindow) : Bool :=
  r.ip_address == ip && r.endpoint == ep && r.window_start == w

/-- The opportunistic cleanup
`RateLimit.query.filter(RateLimit.window_start < window_start).delete()`,
where the threshold is `utcnow() - timedelta(hours=1)` (natural subtraction:
timestamps below one hour after the epoch keep every row, as no row has a
negative start). -/
def cleanupWindows (now : Nat) (st : List RateWindow) : List RateWindow :=
  st.filter (fun r => !(r.window_start < now - HOUR_US))

/-- Increment `request_count` of the first row matching `p` (the mutation of
the single row returned by `.first()`). -/
def incrFirst (p : RateWindow → Bool) : List RateWindow → List RateWindow
  | [] => []
  | r :: rs =>
    if p r then { r with request_count := r.request_count + 1 } :: rs
    else r :: incrFirst p rs

/-- Embeds `retry_after = int((current_window + window_duration -
utcnow()).total_seconds())`: whole seconds remaining until the end of the current window (truncating
division; the difference is positive because `truncHour now + HOUR_US > now`). -/
def retryAfterOf (now : Nat) : Nat :=
  (truncHour now + HOUR_US - now) / SECOND_US

/-- Embedding of `protection.check_rate_limit(ip_address, endpoint)` at call time `now`
against persistent state `st`.  Returns the result triple and the persistent
state after the call.  The deny paths return before `db.session.commit()`,
so their pending session changes (the cleanup delete, a freshly added row)
are rolled back and the persistent state is unchanged; the allow path
commits the cleanup together with the increment / insert. -/
def check_rate_limit (cfg : RateConfig) (now : Nat) (st : List RateWindow)
    (ip : String) (endpoint : String) : RateResult × List RateWindow :=
  if !cfg.enabled then (⟨true, 0, 999⟩, st)
  else
    let cleaned := cleanupWindows now st
    let cw := truncHour now
    match cleaned.find? (windowKeyMatches ip endpoint cw) with
    | some r =>
      if r.request_count ≥ cfg.limit then
        (⟨false, retryAfterOf now, 0⟩, st)
      else
        (⟨true, 0, cfg.limit - (r.request_count + 1)⟩,
          incrFirst (windowKeyMatches ip endpoint cw) cleaned)
    | none =>
      -- fresh row with request_count = 0, added to the session
      if 0 ≥ cfg.limit then
        (⟨false, retryAfterOf now, 0⟩, st)
      else
        (⟨true, 0, cfg.limit - 1⟩, cleaned ++ [⟨ip, endpoint, cw, 1⟩])

/-- Row of the `api_usage` table (`models.ApiUsage`) for one calendar date.
All claims concern a single day, so the state below is the optional row for
"today"; `estimated_cost` is the exact value of the `Numeric(10,4)` column. -/
structure ApiUsage where
  request_count : Nat
  estimated_cost : ℚ
  tokens_used : Nat
deriving Repr, DecidableEq

/-- Budget configuration: `DAILY_BUDGET_USD`, `BUDGET_ALERT_THRESHOLD`,
`COST_PER_REQUEST`. -/
structure BudgetConfig where
  daily_budget : ℚ
  alert_threshold : ℚ
  cost_per_request : ℚ
deriving Repr, DecidableEq

/-- Source defaults: $5.00 daily budget, 0.8 alert threshold,
$0.0015 per request (`Decimal(str(0.0015))` is exactly 3/2000). -/
def defaultBudgetConfig : BudgetConfig := ⟨5, 4/5, 3/2000⟩

/-- Round a rational to the nearest integer, ties to even
(the rounding used by `"%.2f"` formatting of an exact value). -/
def roundHalfEven (q : ℚ) : ℤ :=
  let f := ⌊q⌋
  let r := q - f
  if r < 1/2 then f
  else if 1/2 < r then f + 1
  else if f % 2 = 0 then f else f + 1

/-- Render a rational with two decimal places, as `f"{x:.2f}"` does. -/
def formatTwoDecimals (q : ℚ) : String :=
  let c := roundHalfEven (q * 100)
  let sign := if c < 0 then "-" else ""
  let n := c.natAbs
  let fracStr :=
    if n % 100 < 10 then "0" ++ toString (n % 100) else toString (n % 100)
  sign ++ toString (n / 100) ++ "." ++ fracStr

/-- The denial message built by `check_daily_budget`. -/
def budgetExceededMessage (b : ℚ) : String :=
  "Daily API budget of $" ++ formatTwoDecimals b ++
    " exceeded. Please try again tomorrow."

/-- Embedding of `protection.check_daily_budget()` on today's usage row.  The 80%-threshold
branch in the source only emits `logger.warning` — it changes neither the
result nor any state, so it has no observable effect in the embedding.  The
source compares `float(usage.estimated_cost) >= daily_budget`; both values
are modelled exactly (the cost is a `Numeric(10,4)` decimal, the budget a
configuration constant), so the comparison is the exact `≥` on `ℚ`. -/
def check_daily_budget (cfg : BudgetConfig) (usage : Option ApiUsage) :
    Bool × String :=
  match usage with
  | none => (true, "")
  | some u =>
    if u.estimated_cost ≥ cfg.daily_budget then
      (false, budgetExceededMessage cfg.daily_budget)
    else (true, "")

/-- Python truthiness of the `cost_estimate` argument: `None` and `0` are
falsy, every other number is truthy (`if cost_estimate:` in the source). -/
def pyTruthy (o : Option ℚ) : Bool :=
  match o with
  | none => false
  | some c => decide (c ≠ 0)

/-- Embedding of `protection.record_api_usage(cost_estimate, tokens_used)` on today's
usage row (created with zero counters if absent).  Returns the committed row. -/
def record_api_usage (cfg : BudgetConfig) (cost_estimate : Option ℚ)
    (tokens_used : Nat) (usage : Option ApiUsage) : ApiUsage :=
  let u := usage.getD ⟨0, 0, 0⟩
  let added :=
    if pyTruthy cost_estimate then cost_estimate.getD 0
    else cfg.cost_per_request
  { request_count := u.request_count + 1
    estimated_cost := u.estimated_cost + added
    tokens_used := u.tokens_used + tokens_used }

/-- Row of the `blocked_ips` table (`models.BlockedIp`); `blocked_until = none`
is a permanent block.  `reason`/`blocked_at` play no role in the claims. -/
structure BlockedIp where
  ip_address : String
  blocked_until : Option Nat
deriving Repr, DecidableEq

/-- Embedding of `protection.is_ip_blocked(ip_address)` at call time `now` against the
blocklist table.  Returns the verdict and the table after the call (an
expired temporary entry is deleted and committed as a side effect). -/
def is_ip_blocked (now : Nat) (bl : List BlockedIp) (ip : String) :
    Bool × List BlockedIp :=
  match bl.find? (fun b => b.ip_address == ip) with
  | none => (false, bl)
  | some b =>
    match b.blocked_until with
    | some t =>
      if t < now then (false, bl.eraseP (fun e => e.ip_address == ip))
      else (true, bl)
    | none => (true, bl)

/-- Split a character list at every occurrence of `sep`
(`str.split(sep)` for a one-character separator; the string functions here
are implemented over `List Char` by structural recursion so that concrete
URLs evaluate inside the kernel). -/
def splitOnChar (sep : Char) : List Char → List (List Char)
  | [] => [[]]
  | x :: xs =>
    match splitOnChar sep xs with
    | [] => [[]]
    | y :: ys => if x = sep then [] :: y :: ys else (x :: y) :: ys

/-- Join character lists with `sep` between them (inverse of `splitOnChar`). -/
def joinWithChar (sep : Char) : List (List Char) → List Char
  | [] => []
  | [x] => x
  | x :: xs => x ++ sep :: joinWithChar sep xs

/-- Test whether `suffix` is a suffix of `s` (`str.endswith`). -/
def endsWithChars (suffix s : List Char) : Bool :=
  s.drop (s.length - suffix.length) == suffix

/-- A character in the scheme part of a URL after the first
(`urllib.parse.scheme_chars`). -/
def isSchemeChar (c : Char) : Bool :=
  c.isAlphanum || c == '+' || c == '-' || c == '.'

/-- A valid URL scheme: a letter followed by scheme characters. -/
def validScheme : List Char → Bool
  | [] => false
  | c :: cs => c.isAlpha && cs.all isSchemeChar

/-- Strip a leading `scheme:` from a URL, as `urlsplit` does: only a prefix
up to the first colon that is a valid scheme is removed. -/
def afterScheme (url : List Char) : List Char :=
  match splitOnChar ':' url with
  | [] => url
  | [_] => url
  | s :: rest => if validScheme s then joinWithChar ':' rest else url

/-- Embedding of `urllib.parse.urlparse(url).hostname` for
`scheme://netloc/…`-shaped URLs: the netloc follows `//` and runs to the
first `/`, `?` or `#`; the hostname is the netloc minus user-info (up to the
last `@`), minus the port (after the first `:`, or the `[…]` bracket
contents for an IPv6 literal), lowercased; `None` when empty. -/
def hostnameOf (url : String) : Option String :=
  match afterScheme url.data with
  | '/' :: '/' :: tail =>
    let netloc := tail.takeWhile (fun c => c != '/' && c != '?' && c != '#')
    let hostinfo := (splitOnChar '@' netloc).getLastD netloc
    let host :=
      match hostinfo with
      | '[' :: bracketed => bracketed.takeWhile (fun c => c != ']')
      | _ => hostinfo.takeWhile (fun c => c != ':')
    if host.isEmpty then none else some ⟨host.map Char.toLower⟩
  | _ => none

/-- One octet of a dotted-quad IPv4 literal, as `ipaddress` parses it:
1 to 3 decimal digits, no leading zero, value at most 255. -/
def parseOctet (cs : List Char) : Option Nat :=
  if cs.length = 0 || 3 < cs.length then none
  else if !cs.all Char.isDigit then none
  else if 1 < cs.length && cs.headD '0' = '0' then none
  else
    let n := cs.foldl (fun acc c => acc * 10 + (c.toNat - '0'.toNat)) 0
    if n ≤ 255 then some n else none

/-- The 32-bit value of the dotted quad `a.b.c.d`. -/
def ipv4 (a b c d : Nat) : Nat := ((a * 256 + b) * 256 + c) * 256 + d

/-- Embedding of `ipaddress.ip_address(hostname)` restricted to IPv4
literals: parse a strict dotted quad to its 32-bit value.  The IPv6-literal
branch of the source is not embedded: no claim concerns a URL with an
IPv6-literal host, and every hostname below that is not a dotted quad takes
the `ValueError` branch, exactly as in the source. -/
def parseIPv4 (s : String) : Option Nat :=
  match splitOnChar '.' s.data with
  | [a, b, c, d] =>
    match parseOctet a, parseOctet b, parseOctet c, parseOctet d with
    | some x, some y, some z, some w => some (ipv4 x y z w)
    | _, _, _, _ => none
  | _ => none

/-- Membership of a 32-bit address in a CIDR network `base/prefixLen`. -/
def inNetwork (ip base prefixLen : Nat) : Bool :=
  base ≤ ip && ip < base + 2 ^ (32 - prefixLen)

/-- The IPv4 members of `PRIVATE_IP_RANGES`: 10/8, 172.16/12, 192.168/16,
127/8, 169.254/16 (the three IPv6 ranges are unreachable here, as only
IPv4 literals are parsed). -/
def PRIVATE_IP_RANGES : List (Nat × Nat) :=
  [(ipv4 10 0 0 0, 8), (ipv4 172 16 0 0, 12), (ipv4 192 168 0 0, 16),
   (ipv4 127 0 0 0, 8), (ipv4 169 254 0 0, 16)]

/-- Embedding of `protection.validate_url_for_ssrf(url)`: reject missing hostnames,
localhost names, IPv4 literals in a private range, and `.local`/`.localhost`
domains; accept everything else with an empty reason. -/
def validate_url_for_ssrf (url : String) : Bool × String :=
  match hostnameOf url with
  | none => (false, "Invalid URL: no hostname found")
  | some hostname =>
    let lowered := hostname.data.map Char.toLower
    if lowered == "localhost".data || lowered == "localhost.localdomain".data then
      (false, "Localhost URLs are not allowed for security reasons")
    else
      match parseIPv4 hostname with
      | some ip =>
        if PRIVATE_IP_RANGES.any (fun r => inNetwork ip r.1 r.2) then
          (false, "Private IP addresses are not allowed for security reasons")
        else (true, "")
      | none =>
        if endsWithChars ".local".data lowered
            || endsWithChars ".localhost".data lowered then
          (false, "Local domain names are not allowed for security reasons")
        else (true, "")

/-- The admission verdict of the `require_rate_limit` decorator, as the
spec's `AdmissionResult`: 403 on blocklist, 429 with `Retry-After` on rate
limit, 503 on budget, else the wrapped route runs. -/
inductive AdmissionResult where
  | allowed (remaining : Nat)
  | deniedBlocked
  | deniedRateLimited (retry_after : Nat)
  | deniedBudgetExhausted (message : String)
deriving Repr, DecidableEq

/-- The persistent state the gate reads and writes: the blocklist table, the
rate-window table, and today's usage row. -/
structure GateState where
  blocklist : List BlockedIp
  rate : List RateWindow
  usage : Option ApiUsage
deriving Repr, DecidableEq

/-- Full gate configuration. -/
structure GateConfig where
  rateCfg : RateConfig
  budgetCfg : BudgetConfig
deriving Repr, DecidableEq

/-- Result of one pass through the decorator, instrumented with which checks
were evaluated and whether the wrapped operation `f` was invoked; the
definition of `require_rate_limit` below evaluates the stages in the
source's textual order. -/
structure AdmitTrace where
  result : AdmissionResult
  state : GateState
  blocklistChecked : Bool
  rateChecked : Bool
  budgetChecked : Bool
  opInvoked : Bool
deriving Repr, DecidableEq

/-- Embedding of the `require_rate_limit` decorator's `decorated_function` for client `ip`
at time `now`: blocklist check, then `check_rate_limit(ip)` (endpoint
defaulted to `/parse`), then `check_daily_budget()`, each denial aborting
before the next stage and before the wrapped route. -/
def require_rate_limit (cfg : GateConfig) (now : Nat) (st : GateState)
    (ip : String) : AdmitTrace :=
  let blocklistStep := is_ip_blocked now st.blocklist ip
  let st₁ : GateState := { st with blocklist := blocklistStep.2 }
  if blocklistStep.1 then
    ⟨.deniedBlocked, st₁, true, false, false, false⟩
  else
    let rateStep := check_rate_limit cfg.rateCfg now st.rate ip "/parse"
    let st₂ : GateState := { st₁ with rate := rateStep.2 }
    if !rateStep.1.allowed then
      ⟨.deniedRateLimited rateStep.1.retry_after, st₂, true, true, false, false⟩
    else
      let budgetStep := check_daily_budget cfg.budgetCfg st.usage
      if !budgetStep.1 then
        ⟨.deniedBudgetExhausted budgetStep.2, st₂, true, true, true, false⟩
      else
        ⟨.allowed rateStep.1.remaining, st₂, true, true, true, true⟩

/-- Iterated `record_api_usage`: N successive calls with the same arguments,
starting from a fresh day (no usage row for today). -/
def recordN (cfg : BudgetConfig) (cost_estimate : Option ℚ) (tokens_used : Nat) :
    Nat → Option ApiUsage
  | 0 => none
  | n + 1 => some (record_api_usage cfg cost_estimate tokens_used
      (recordN cfg cost_estimate tokens_used n))

/-- Run a sequence of `check_rate_limit` calls at the given times, threading
the persistent state; returns the final state and the result of each call. -/
def runChecks (cfg : RateConfig) (ip ep : String) :
    List Nat → List RateWindow → List RateWindow × List RateResult
  | [], st => (st, [])
  | t :: ts, st =>
    let step := check_rate_limit cfg t st ip ep
    let rest := runChecks cfg ip ep ts step.2
    (rest.1, step.1 :: rest.2)

/-- The request count held by the rate-window table for `ip`'s `/parse`
window at time `now` (0 when there is no row). -/
def currentCount (now : Nat) (ip : String) (l : List RateWindow) : Nat :=
  match l.find? (windowKeyMatches ip "/parse" (truncHour now)) with
  | some r => r.request_count
  | none => 0

/-!  General lemmas about list queries, shared by the claim theorems. -/

/-- A filter that keeps every `q`-match does not change the first `q`-match. -/
theorem find?_filter_of_imp {α : Type} (p q : α → Bool) (l : List α)
    (h : ∀ a, q a = true → p a = true) :
    (l.filter p).find? q = l.find? q := by
  induction l with
  | nil => simp
  | cons a l ih =>
    cases hq : q a with
    | true => simp [List.filter_cons, h a hq, List.find?_cons, hq]
    | false =>
      cases hp : p a with
      | true => simp [List.filter_cons, hp, List.find?_cons, hq, ih]
      | false => simp [List.filter_cons, hp, List.find?_cons, hq, ih]

/-- Erasing the first `p`-match from a list holding at most one `p`-match
leaves a list with no `p`-match. -/
theorem find?_eraseP_of_unique {α : Type} (p : α → Bool) (l : List α)
    (h : (l.filter p).length ≤ 1) : (l.eraseP p).find? p = none := by
  induction l with
  | nil => simp
  | cons a l ih =>
    cases hp : p a with
    | true =>
      rw [List.eraseP_cons_of_pos hp, List.find?_eq_none]
      intro x hx hpx
      have h2 : (a :: l.filter p).length ≤ 1 := by
        simpa [List.filter_cons, hp] using h
      have hlen : (l.filter p).length = 0 := by
        simp only [List.length_cons] at h2
        omega
      have hnil : l.filter p = [] := List.length_eq_zero.mp hlen
      have hmem := List.mem_filter.mpr ⟨hx, hpx⟩
      rw [hnil] at hmem
      exact absurd hmem (List.not_mem_nil x)
    | false =>
      rw [List.eraseP_cons_of_neg (by simp [hp]), List.find?_cons, hp]
      exact ih (by simpa [List.filter_cons, hp] using h)

/-- C2: `validate_url_for_ssrf` rejects each URL of the SSRF table with a
non-empty human-readable reason, accepts `https://example.com/recipe` with
the empty reason, and rejects every URL from which no hostname can be
extracted (with a non-empty reason). -/
theorem ssrf_table_and_missing_hostname :
    ((validate_url_for_ssrf "http://127.0.0.1/x").1 = false ∧
      (validate_url_for_ssrf "http://127.0.0.1/x").2 ≠ "") ∧
    ((validate_url_for_ssrf "http://10.0.0.5/x").1 = false ∧
      (validate_url_for_ssrf "http://10.0.0.5/x").2 ≠ "") ∧
    ((validate_url_for_ssrf "http://192.168.1.1/x").1 = false ∧
      (validate_url_for_ssrf "http://192.168.1.1/x").2 ≠ "") ∧
    ((validate_url_for_ssrf "http://169.254.169.254/x").1 = false ∧
      (validate_url_for_ssrf "http://169.254.169.254/x").2 ≠ "") ∧
    ((validate_url_for_ssrf "http://localhost/x").1 = false ∧
      (validate_url_for_ssrf "http://localhost/x").2 ≠ "") ∧
    validate_url_for_ssrf "https://example.com/recipe" = (true, "") ∧
    (∀ url, hostnameOf url = none →
      validate_url_for_ssrf url = (false, "Invalid URL: no hostname found") ∧
      (validate_url_for_ssrf url).2 ≠ "") := by
  refine ⟨by decide, by decide, by decide, by decide, by decide, by decide, ?_⟩
  intro url h
  rw [validate_url_for_ssrf, h]
  exact ⟨rfl, by decide⟩

/-- Witness for C2's universally quantified part, at a URL with no
extractable hostname. -/
theorem ssrf_missing_hostname_witness :
    validate_url_for_ssrf "http:///x" = (false, "Invalid URL: no hostname found") ∧
    (validate_url_for_ssrf "http:///x").2 ≠ "" :=
  ssrf_table_and_missing_hostname.2.2.2.2.2.2 "http:///x" (by decide)

/-- The budget-exceeded message is never the empty string. -/
theorem budgetExceededMessage_ne_empty (b : ℚ) : budgetExceededMessage b ≠ "" := by
  intro h
  have hlen := congrArg String.length h
  have hpos : 0 < ("Daily API budget of $").length := by decide
  simp only [budgetExceededMessage, String.length_append] at hlen
  simp at hlen
  omega

/-- C3: `check_daily_budget` denies, with the formatted budget message,
exactly when today's accumulated cost has reached the daily budget; with no
usage row, or with a cost below the budget (the whole alert band included),
it allows with the empty message; the alert threshold never changes the
outcome. -/
theorem daily_budget_denies_iff_budget_reached (cfg : BudgetConfig)
    (usage : Option ApiUsage) :
    ((check_daily_budget cfg usage).1 = false ↔
      ∃ u, usage = some u ∧ cfg.daily_budget ≤ u.estimated_cost) ∧
    ((check_daily_budget cfg usage).1 = false →
      (check_daily_budget cfg usage).2 = budgetExceededMessage cfg.daily_budget ∧
      (check_daily_budget cfg usage).2 ≠ "") ∧
    ((check_daily_budget cfg usage).1 = true →
      (check_daily_budget cfg usage).2 = "") ∧
    (∀ th, check_daily_budget { cfg with alert_threshold := th } usage =
      check_daily_budget cfg usage) := by
  refine ⟨?_, ?_, ?_, fun th => rfl⟩ <;>
    rcases usage with _ | u <;>
    simp only [check_daily_budget, ge_iff_le]
  · simp
  · by_cases hb : cfg.daily_budget ≤ u.estimated_cost <;> simp [hb]
  · simp
  · by_cases hb : cfg.daily_budget ≤ u.estimated_cost <;>
      simp [hb, budgetExceededMessage_ne_empty]
  · simp
  · by_cases hb : cfg.daily_budget ≤ u.estimated_cost <;> simp [hb]

/-- Witness for C3 at the default configuration and a cost at the budget. -/
theorem daily_budget_denies_witness :
    (check_daily_budget defaultBudgetConfig (some ⟨3, 5, 7⟩)).1 = false ∧
    (check_daily_budget defaultBudgetConfig (some ⟨3, 5, 7⟩)).2 =
      budgetExceededMessage 5 := by
  have h := daily_budget_denies_iff_budget_reached defaultBudgetConfig (some ⟨3, 5, 7⟩)
  have hf : (check_daily_budget defaultBudgetConfig (some ⟨3, 5, 7⟩)).1 = false :=
    h.1.mpr ⟨⟨3, 5, 7⟩, rfl, by norm_num [defaultBudgetConfig]⟩
  exact ⟨hf, (h.2.1 hf).1⟩

/-- C5: `is_ip_blocked` with no entry for the address returns not-blocked and
leaves the table unchanged; with an expired temporary entry it returns
not-blocked and deletes the entry, so an immediate re-lookup finds nothing
(the table is unique per address); with a permanent or still-active entry it
returns blocked and leaves the table unchanged. -/
theorem ip_block_lookup_spec (now : Nat) (bl : List BlockedIp) (ip : String)
    (huniq : (bl.filter (fun e => e.ip_address == ip)).length ≤ 1) :
    (bl.find? (fun b => b.ip_address == ip) = none →
      is_ip_blocked now bl ip = (false, bl)) ∧
    (∀ b t, bl.find? (fun b => b.ip_address == ip) = some b →
      b.blocked_until = some t → t < now →
      (is_ip_blocked now bl ip).1 = false ∧
      (is_ip_blocked now bl ip).2.find? (fun e => e.ip_address == ip) = none) ∧
    (∀ b, bl.find? (fun b => b.ip_address == ip) = some b →
      (b.blocked_until = none ∨ ∃ t, b.blocked_until = some t ∧ ¬ t < now) →
      is_ip_blocked now bl ip = (true, bl)) := by
  refine ⟨?_, ?_, ?_⟩
  · intro h
    simp [is_ip_blocked, h]
  · intro b t hfind huntil hlt
    simp only [is_ip_blocked, hfind, huntil, if_pos hlt]
    exact ⟨trivial, find?_eraseP_of_unique _ bl huniq⟩
  · rintro b hfind (huntil | ⟨t, huntil, hge⟩)
    · simp [is_ip_blocked, hfind, huntil]
    · simp [is_ip_blocked, hfind, huntil, hge]

/-- Witness for C5 at an expired temporary entry: not blocked, and the entry
is gone from the table afterwards. -/
theorem ip_block_expiry_witness :
    (is_ip_blocked 10 [⟨"198.51.100.4", some 5⟩] "198.51.100.4").1 = false ∧
    (is_ip_blocked 10 [⟨"198.51.100.4", some 5⟩] "198.51.100.4").2.find?
      (fun e => e.ip_address == "198.51.100.4") = none :=
  (ip_block_lookup_spec 10 [⟨"198.51.100.4", some 5⟩] "198.51.100.4"
    (by decide)).2.1 ⟨"198.51.100.4", some 5⟩ 5 (by decide) rfl (by decide)

/-- C7 counterexample: with a supplied cost estimate of 0 on a fresh day,
the code adds the configured default cost ($0.0015) — `if cost_estimate:`
treats a supplied 0 like an absent estimate — so the accumulated cost does
not increase by the supplied value. -/
theorem record_usage_zero_cost_counterexample :
    (record_api_usage defaultBudgetConfig (some 0) 0 none).estimated_cost = 3/2000 ∧
    ¬ (record_api_usage defaultBudgetConfig (some 0) 0 none).estimated_cost
        = 0 + (0 : ℚ) := by
  constructor <;> simp [record_api_usage, pyTruthy, defaultBudgetConfig]

/-- C7 (amended): every call increments `request_count` by exactly 1 and
adds `tokens_used`; the accumulated cost increases by the supplied estimate
when a nonzero one is supplied, and by the configured default cost when the
estimate is absent or 0. -/
theorem record_usage_spec (cfg : BudgetConfig) (c : Option ℚ) (tok : Nat)
    (usage : Option ApiUsage) :
    (record_api_usage cfg c tok usage).request_count
        = (usage.getD ⟨0, 0, 0⟩).request_count + 1 ∧
    (record_api_usage cfg c tok usage).tokens_used
        = (usage.getD ⟨0, 0, 0⟩).tokens_used + tok ∧
    (∀ x, c = some x → x ≠ 0 →
      (record_api_usage cfg c tok usage).estimated_cost
        = (usage.getD ⟨0, 0, 0⟩).estimated_cost + x) ∧
    ((c = none ∨ c = some 0) →
      (record_api_usage cfg c tok usage).estimated_cost
        = (usage.getD ⟨0, 0, 0⟩).estimated_cost + cfg.cost_per_request) := by
  refine ⟨rfl, rfl, ?_, ?_⟩
  · rintro x rfl hx
    simp [record_api_usage, pyTruthy, hx]
  · rintro (rfl | rfl)
    · simp [record_api_usage, pyTruthy]
    · simp [record_api_usage, pyTruthy]

/-- Witness for C7's amended theorem at a nonzero supplied estimate. -/
theorem record_usage_spec_witness :
    (record_api_usage defaultBudgetConfig (some (1/100)) 5 none).estimated_cost
      = 0 + 1/100 :=
  (record_usage_spec defaultBudgetConfig (some (1/100)) 5 none).2.2.1 (1/100)
    rfl (by norm_num)

/-- C4 counterexample: the cost 0 is representable in the store's decimal
precision, yet one call with supplied cost 0 on a fresh day accumulates
`$0.0015` (the default), not `1 * 0`. -/
theorem recordN_zero_cost_counterexample :
    ¬ ((recordN defaultBudgetConfig (some 0) 0 1).getD ⟨0, 0, 0⟩).estimated_cost
        = 1 * (0 : ℚ) := by
  rw [show recordN defaultBudgetConfig (some 0) 0 1
      = some (record_api_usage defaultBudgetConfig (some 0) 0 none) from rfl]
  rw [Option.getD_some]
  simp [record_api_usage, pyTruthy, defaultBudgetConfig]

/-- C4 (amended): for every nonzero cost C (exact decimal values included),
N calls of `record_api_usage` with cost C starting from a fresh day yield
`accumulated_cost = N * C` exactly — rational arithmetic, no drift — and
`request_count = N`, for every N. -/
theorem recordN_exact_accumulation (cfg : BudgetConfig) (C : ℚ) (hC : C ≠ 0)
    (tok : Nat) (N : Nat) :
    ((recordN cfg (some C) tok N).getD ⟨0, 0, 0⟩).request_count = N ∧
    ((recordN cfg (some C) tok N).getD ⟨0, 0, 0⟩).estimated_cost = N * C := by
  induction N with
  | zero => simp [recordN]
  | succ n ih =>
    obtain ⟨ih1, ih2⟩ := ih
    rw [show recordN cfg (some C) tok (n + 1)
        = some (record_api_usage cfg (some C) tok (recordN cfg (some C) tok n))
      from rfl]
    rw [Option.getD_some]
    constructor
    · simp [record_api_usage, ih1]
    · simp only [record_api_usage, pyTruthy]
      simp [ih2]
      rw [if_neg hC]
      ring

/-- Witness for C4's amended theorem at the default per-request cost, N = 2. -/
theorem recordN_exact_accumulation_witness :
    ((recordN defaultBudgetConfig (some (3/2000)) 0 2).getD ⟨0, 0, 0⟩).request_count = 2 ∧
    ((recordN defaultBudgetConfig (some (3/2000)) 0 2).getD ⟨0, 0, 0⟩).estimated_cost
      = (2 : ℕ) * (3/2000 : ℚ) := by
  have h := recordN_exact_accumulation defaultBudgetConfig (3/2000) (by norm_num) 0 2
  exact_mod_cast h

/-- The current window's start is never strictly older than one hour before
`now`. -/
theorem truncHour_not_old (t : Nat) : ¬ truncHour t < t - HOUR_US := by
  have h := Nat.div_add_mod t HOUR_US
  have h2 : t % HOUR_US < HOUR_US := Nat.mod_lt t (by simp [HOUR_US])
  unfold truncHour
  omega

/-- Every timestamp precedes the end of its own window. -/
theorem lt_truncHour_add_hour (t : Nat) : t < truncHour t + HOUR_US := by
  have h := Nat.div_add_mod t HOUR_US
  have h2 : t % HOUR_US < HOUR_US := Nat.mod_lt t (by simp [HOUR_US])
  unfold truncHour
  omega

/-- Members of `incrFirst p l` when the first `p`-match of `l` is `r`: every
member is either an original member or `r` with its count incremented. -/
theorem mem_incrFirst_of_find? {p : RateWindow → Bool} {l : List RateWindow}
    {r : RateWindow} (hfind : l.find? p = some r) :
    ∀ w ∈ incrFirst p l,
      w ∈ l ∨ w = { r with request_count := r.request_count + 1 } := by
  induction l with
  | nil => intro w hw; simp [incrFirst] at hw
  | cons a l ih =>
    intro w hw
    simp only [incrFirst] at hw
    cases hp : p a with
    | true =>
      rw [List.find?_cons_of_pos l hp] at hfind
      have ha : a = r := by injection hfind
      rw [if_pos hp] at hw
      rcases List.mem_cons.mp hw with h | h
      · exact Or.inr (ha ▸ h)
      · exact Or.inl (List.mem_cons_of_mem a h)
    | false =>
      rw [List.find?_cons_of_neg l (by simp [hp])] at hfind
      rw [if_neg (by simp [hp])] at hw
      rcases List.mem_cons.mp hw with h | h
      · exact Or.inl (h ▸ List.mem_cons_self a l)
      · rcases ih hfind w h with h' | h'
        · exact Or.inl (List.mem_cons_of_mem a h')
        · exact Or.inr h'

/-- C8: starting from a table in which every window's count is at most the
quota, a `check_rate_limit` call leaves every window's count at most the
quota — in particular a count already at the quota is never incremented. -/
theorem rate_limit_count_le_quota (cfg : RateConfig) (now : Nat)
    (st : List RateWindow) (ip ep : String)
    (hinv : ∀ w ∈ st, w.request_count ≤ cfg.limit) :
    ∀ w ∈ (check_rate_limit cfg now st ip ep).2, w.request_count ≤ cfg.limit := by
  intro w hw
  cases hE : cfg.enabled with
  | false =>
    rw [show (check_rate_limit cfg now st ip ep).2 = st by
      simp [check_rate_limit, hE]] at hw
    exact hinv w hw
  | true =>
    rcases hfind : (cleanupWindows now st).find?
        (windowKeyMatches ip ep (truncHour now)) with _ | r
    · by_cases hl : 0 ≥ cfg.limit
      · rw [show (check_rate_limit cfg now st ip ep).2 = st by
          simp [check_rate_limit, hE, hfind, hl]] at hw
        exact hinv w hw
      · rw [show (check_rate_limit cfg now st ip ep).2
            = cleanupWindows now st ++ [⟨ip, ep, truncHour now, 1⟩] by
          simp [check_rate_limit, hE, hfind, hl]] at hw
        rcases List.mem_append.mp hw with h | h
        · exact hinv w (List.mem_filter.mp h).1
        · have hw1 : w = ⟨ip, ep, truncHour now, 1⟩ := by simpa using h
          rw [hw1]
          show 1 ≤ cfg.limit
          omega
    · by_cases hr : r.request_count ≥ cfg.limit
      · rw [show (check_rate_limit cfg now st ip ep).2 = st by
          simp [check_rate_limit, hE, hfind, hr]] at hw
        exact hinv w hw
      · rw [show (check_rate_limit cfg now st ip ep).2
            = incrFirst (windowKeyMatches ip ep (truncHour now))
                (cleanupWindows now st) by
          simp [check_rate_limit, hE, hfind, hr]] at hw
        rcases mem_incrFirst_of_find? hfind w hw with h | h
        · exact hinv w (List.mem_filter.mp h).1
        · have hrs : r ∈ st :=
            (List.mem_filter.mp (List.mem_of_find?_eq_some hfind)).1
          have hbound := hinv r hrs
          rw [h]
          show r.request_count + 1 ≤ cfg.limit
          omega

/-- Witness for C8: a full window (count at the quota of 1) stays at the
quota after a further check. -/
theorem rate_limit_count_le_quota_witness :
    (⟨"203.0.113.9", "/parse", 0, 1⟩ : RateWindow).request_count ≤ 1 :=
  rate_limit_count_le_quota ⟨true, 1⟩ 5 [⟨"203.0.113.9", "/parse", 0, 1⟩]
    "203.0.113.9" "/parse" (by decide) ⟨"203.0.113.9", "/parse", 0, 1⟩ (by decide)

/-- The cleanup never changes the result of the current window's lookup. -/
theorem find?_cleanup_current (now : Nat) (st : List RateWindow)
    (ip ep : String) :
    (cleanupWindows now st).find? (windowKeyMatches ip ep (truncHour now))
      = st.find? (windowKeyMatches ip ep (truncHour now)) := by
  refine find?_filter_of_imp _ _ st ?_
  intro a ha
  have h3 : a.window_start = truncHour now := by
    simp only [windowKeyMatches, Bool.and_eq_true, beq_iff_eq] at ha
    exact ha.2
  simp [h3, truncHour_not_old now]

/-- C10: the opportunistic cleanup deletes only rows strictly older than one
hour before `now`; a row whose start is the current window's start always
survives it, and the lookup of the current window's key is unaffected by it. -/
theorem cleanup_spares_current_window (now : Nat) (st : List RateWindow)
    (ip ep : String) :
    (∀ w ∈ st, w ∉ cleanupWindows now st → w.window_start < now - HOUR_US) ∧
    (∀ w ∈ st, w.window_start = truncHour now → w ∈ cleanupWindows now st) ∧
    ((cleanupWindows now st).find? (windowKeyMatches ip ep (truncHour now))
      = st.find? (windowKeyMatches ip ep (truncHour now))) := by
  refine ⟨?_, ?_, ?_⟩
  · intro w hw hnot
    by_contra hlt
    exact hnot (List.mem_filter.mpr ⟨hw, by simp [cleanupWindows, hlt]⟩)
  · intro w hw heq
    exact List.mem_filter.mpr ⟨hw, by simp [heq, truncHour_not_old now]⟩
  · exact find?_cleanup_current now st ip ep

/-- Witness for C10: with one stale row and one current row, the current row
survives the cleanup. -/
theorem cleanup_spares_current_window_witness :
    (⟨"203.0.113.9", "/parse", 7200000000, 1⟩ : RateWindow) ∈
      cleanupWindows 7200000005
        [⟨"203.0.113.9", "/parse", 0, 3⟩,
         ⟨"203.0.113.9", "/parse", 7200000000, 1⟩] :=
  (cleanup_spares_current_window 7200000005
    [⟨"203.0.113.9", "/parse", 0, 3⟩, ⟨"203.0.113.9", "/parse", 7200000000, 1⟩]
    "203.0.113.9" "/parse").2.1
    ⟨"203.0.113.9", "/parse", 7200000000, 1⟩ (by decide) (by decide)

/-- First call in a window on an empty table (positive quota): allowed, row
committed with count 1. -/
theorem check_rate_limit_empty (cfg : RateConfig) (hE : cfg.enabled = true)
    (hl : 1 ≤ cfg.limit) (t : Nat) (ip ep : String) :
    check_rate_limit cfg t [] ip ep
      = (⟨true, 0, cfg.limit - 1⟩, [⟨ip, ep, truncHour t, 1⟩]) := by
  have h0 : ¬ 0 ≥ cfg.limit := by omega
  simp [check_rate_limit, hE, cleanupWindows, h0]

/-- In-window call on the single current-window row with count below the
quota: allowed, count incremented. -/
theorem check_rate_limit_step (cfg : RateConfig) (hE : cfg.enabled = true)
    (t : Nat) (ip ep : String) (W k : Nat) (hW : truncHour t = W)
    (hk : k < cfg.limit) :
    check_rate_limit cfg t [⟨ip, ep, W, k⟩] ip ep
      = (⟨true, 0, cfg.limit - (k + 1)⟩, [⟨ip, ep, W, k + 1⟩]) := by
  subst hW
  have hkeep := truncHour_not_old t
  have hnk : ¬ k ≥ cfg.limit := by omega
  unfold check_rate_limit
  rw [if_neg (by simp [hE])]
  have hclean : cleanupWindows t [⟨ip, ep, truncHour t, k⟩]
      = [⟨ip, ep, truncHour t, k⟩] := by
    simp [cleanupWindows, hkeep]
  have hfind : List.find? (windowKeyMatches ip ep (truncHour t))
        [⟨ip, ep, truncHour t, k⟩]
      = some ⟨ip, ep, truncHour t, k⟩ := by
    simp [windowKeyMatches]
  simp only [hclean, hfind]
  rw [if_neg hnk]
  simp [incrFirst, windowKeyMatches]

/-- In-window call on the single current-window row with count at or above
the quota: denied with the computed retry time, table unchanged. -/
theorem check_rate_limit_deny (cfg : RateConfig) (hE : cfg.enabled = true)
    (t : Nat) (ip ep : String) (W k : Nat) (hW : truncHour t = W)
    (hk : cfg.limit ≤ k) :
    check_rate_limit cfg t [⟨ip, ep, W, k⟩] ip ep
      = (⟨false, retryAfterOf t, 0⟩, [⟨ip, ep, W, k⟩]) := by
  subst hW
  have hkeep := truncHour_not_old t
  unfold check_rate_limit
  rw [if_neg (by simp [hE])]
  have hclean : cleanupWindows t [⟨ip, ep, truncHour t, k⟩]
      = [⟨ip, ep, truncHour t, k⟩] := by
    simp [cleanupWindows, hkeep]
  have hfind : List.find? (windowKeyMatches ip ep (truncHour t))
        [⟨ip, ep, truncHour t, k⟩]
      = some ⟨ip, ep, truncHour t, k⟩ := by
    simp [windowKeyMatches]
  simp only [hclean, hfind]
  rw [if_pos hk]

/-- Same-window calls from a single current-window row, staying within the
quota: all allowed, the count advancing by one per call. -/
theorem runChecks_fill (cfg : RateConfig) (hE : cfg.enabled = true)
    (ip ep : String) (W : Nat) :
    ∀ (ts : List Nat) (k : Nat), (∀ t ∈ ts, truncHour t = W) →
    k + ts.length ≤ cfg.limit →
    (runChecks cfg ip ep ts [⟨ip, ep, W, k⟩]).1 = [⟨ip, ep, W, k + ts.length⟩] ∧
    ∀ r ∈ (runChecks cfg ip ep ts [⟨ip, ep, W, k⟩]).2, r.allowed = true := by
  intro ts
  induction ts with
  | nil =>
    intro k _ _
    exact ⟨by simp [runChecks], by simp [runChecks]⟩
  | cons t ts ih =>
    intro k hin hlen
    have hW : truncHour t = W := hin t (List.mem_cons_self t ts)
    simp only [List.length_cons] at hlen
    have hk : k < cfg.limit := by omega
    have hstep := check_rate_limit_step cfg hE t ip ep W k hW hk
    have ih' := ih (k + 1) (fun t' ht' => hin t' (List.mem_cons_of_mem t ht'))
      (by omega)
    constructor
    · simp only [runChecks, hstep]
      rw [ih'.1]
      have heq : k + 1 + ts.length = k + (ts.length + 1) := by omega
      rw [heq]
      simp
    · intro r hr
      simp only [runChecks, hstep] at hr
      rcases List.mem_cons.mp hr with h | h
      · rw [h]
      · exact ih'.2 r h

/-- C1 (amended): with rate limiting enabled, after exactly `quota` admitted
check calls for one (address, endpoint) pair within one hourly window,
starting from an empty table, the next check call in the same window is
denied with `remaining = 0` and `retry_after` equal to the number of whole
seconds left until `windowStart + 1 hour` — positive whenever at least one
full second remains in the window (the source truncates the remainder to an
integer, so it is 0 within the window's final second). -/
theorem rate_limit_exhaustion_after_quota (cfg : RateConfig)
    (hE : cfg.enabled = true) (ip ep : String) (W : Nat) (ts : List Nat)
    (hin : ∀ t ∈ ts, truncHour t = W) (hlen : ts.length = cfg.limit)
    (t' : Nat) (ht' : truncHour t' = W) :
    (∀ r ∈ (runChecks cfg ip ep ts []).2, r.allowed = true) ∧
    check_rate_limit cfg t' (runChecks cfg ip ep ts []).1 ip ep
      = (⟨false, retryAfterOf t', 0⟩, (runChecks cfg ip ep ts []).1) ∧
    (SECOND_US ≤ truncHour t' + HOUR_US - t' → 0 < retryAfterOf t') := by
  rcases ts with _ | ⟨t0, ts⟩
  · have hl : cfg.limit = 0 := by simpa using hlen.symm
    refine ⟨by simp [runChecks], ?_, ?_⟩
    · simp only [runChecks]
      simp [check_rate_limit, hE, cleanupWindows, hl]
    · intro h
      exact Nat.div_pos h (by simp [SECOND_US])
  · have hW0 : truncHour t0 = W := hin t0 (List.mem_cons_self t0 ts)
    simp only [List.length_cons] at hlen
    have hl : 1 ≤ cfg.limit := by omega
    have hfirst := check_rate_limit_empty cfg hE hl t0 ip ep
    rw [hW0] at hfirst
    have hfill := runChecks_fill cfg hE ip ep W ts 1
      (fun t ht => hin t (List.mem_cons_of_mem t0 ht)) (by omega)
    have hstate : (runChecks cfg ip ep (t0 :: ts) []).1 = [⟨ip, ep, W, cfg.limit⟩] := by
      simp only [runChecks, hfirst]
      rw [hfill.1]
      have heq : 1 + ts.length = cfg.limit := by omega
      rw [heq]
    refine ⟨?_, ?_, ?_⟩
    · intro r hr
      simp only [runChecks, hfirst] at hr
      rcases List.mem_cons.mp hr with h | h
      · rw [h]
      · exact hfill.2 r h
    · rw [hstate]
      exact check_rate_limit_deny cfg hE t' ip ep W cfg.limit ht' (le_refl _)
    · intro h
      exact Nat.div_pos h (by simp [SECOND_US])

/-- C1 counterexample: quota 1, one admitted call at the window's start,
then a second call in the same window half a second before the window ends —
denied, but with `retry_after = int(0.5 s) = 0`, not positive. -/
theorem rate_limit_retry_after_zero_last_second :
    (runChecks ⟨true, 1⟩ "203.0.113.7" "/parse" [0] []).2 = [⟨true, 0, 0⟩] ∧
    truncHour 3599500000 = truncHour 0 ∧
    check_rate_limit ⟨true, 1⟩ 3599500000
        (runChecks ⟨true, 1⟩ "203.0.113.7" "/parse" [0] []).1
        "203.0.113.7" "/parse"
      = (⟨false, 0, 0⟩, [⟨"203.0.113.7", "/parse", 0, 1⟩]) := by
  refine ⟨by decide, by decide, by decide⟩

/-- Witness for C1's amended theorem: quota 1, exhausting call at the start
of the window, next call mid-window — denied with a positive retry time. -/
theorem rate_limit_exhaustion_witness :
    check_rate_limit ⟨true, 1⟩ 1800000000
        (runChecks ⟨true, 1⟩ "203.0.113.7" "/parse" [0] []).1
        "203.0.113.7" "/parse"
      = (⟨false, retryAfterOf 1800000000, 0⟩,
         (runChecks ⟨true, 1⟩ "203.0.113.7" "/parse" [0] []).1) ∧
    0 < retryAfterOf 1800000000 := by
  have h := rate_limit_exhaustion_after_quota ⟨true, 1⟩ rfl "203.0.113.7"
    "/parse" 0 [0] (by decide) (by decide) 1800000000 (by decide)
  exact ⟨h.2.1, h.2.2 (by decide)⟩

/-- C6: the gate evaluates its checks in the fixed order blocklist, rate
limit, budget; a denial at any stage leaves every later check unevaluated,
and the wrapped expensive operation runs exactly on the allowed outcome. -/
theorem gate_order_short_circuit (cfg : GateConfig) (now : Nat)
    (st : GateState) (ip : String) :
    ((require_rate_limit cfg now st ip).result = .deniedBlocked →
      (require_rate_limit cfg now st ip).rateChecked = false ∧
      (require_rate_limit cfg now st ip).budgetChecked = false ∧
      (require_rate_limit cfg now st ip).opInvoked = false) ∧
    (∀ ra, (require_rate_limit cfg now st ip).result = .deniedRateLimited ra →
      (require_rate_limit cfg now st ip).budgetChecked = false ∧
      (require_rate_limit cfg now st ip).opInvoked = false) ∧
    (∀ m, (require_rate_limit cfg now st ip).result = .deniedBudgetExhausted m →
      (require_rate_limit cfg now st ip).opInvoked = false) ∧
    ((require_rate_limit cfg now st ip).blocklistChecked = true) ∧
    ((require_rate_limit cfg now st ip).rateChecked = true →
      (is_ip_blocked now st.blocklist ip).1 = false) ∧
    ((require_rate_limit cfg now st ip).budgetChecked = true →
      (require_rate_limit cfg now st ip).rateChecked = true ∧
      (check_rate_limit cfg.rateCfg now st.rate ip "/parse").1.allowed = true) ∧
    ((require_rate_limit cfg now st ip).opInvoked = true ↔
      ∃ rem, (require_rate_limit cfg now st ip).result = .allowed rem) := by
  cases hb : (is_ip_blocked now st.blocklist ip).1 with
  | true => simp [require_rate_limit, hb]
  | false =>
    cases hr : (check_rate_limit cfg.rateCfg now st.rate ip "/parse").1.allowed with
    | false => simp [require_rate_limit, hb, hr]
    | true =>
      cases hd : (check_daily_budget cfg.budgetCfg st.usage).1 with
      | false => simp [require_rate_limit, hb, hr, hd]
      | true => simp [require_rate_limit, hb, hr, hd]

/-- Witness for C6 at a concrete permanently blocked address: the rate and
budget stages are not evaluated. -/
theorem gate_order_short_circuit_witness :
    (require_rate_limit ⟨defaultRateConfig, defaultBudgetConfig⟩ 0
        ⟨[⟨"198.51.100.7", none⟩], [], none⟩ "198.51.100.7").rateChecked = false :=
  ((gate_order_short_circuit ⟨defaultRateConfig, defaultBudgetConfig⟩ 0
      ⟨[⟨"198.51.100.7", none⟩], [], none⟩ "198.51.100.7").1 (by decide)).1

/-- A denied `check_rate_limit` call commits nothing: the table after the
call is the table before it. -/
theorem check_rate_limit_deny_keeps_state (cfg : RateConfig) (now : Nat)
    (st : List RateWindow) (ip ep : String)
    (h : (check_rate_limit cfg now st ip ep).1.allowed = false) :
    (check_rate_limit cfg now st ip ep).2 = st := by
  cases hEb : cfg.enabled with
  | false => simp [check_rate_limit, hEb] at h
  | true =>
    rcases hfind : (cleanupWindows now st).find?
        (windowKeyMatches ip ep (truncHour now)) with _ | r
    · by_cases hl : 0 ≥ cfg.limit
      · simp [check_rate_limit, hEb, hfind, hl]
      · simp [check_rate_limit, hEb, hfind, hl] at h
    · by_cases hrq : r.request_count ≥ cfg.limit
      · simp [check_rate_limit, hEb, hfind, hrq]
      · simp [check_rate_limit, hEb, hfind, hrq] at h

/-- Incrementing the first `p`-match does not disturb the first `p`-match
lookup, provided `p` is preserved by the increment. -/
theorem find?_incrFirst_of_find? {p : RateWindow → Bool} {l : List RateWindow}
    {r : RateWindow} (hfind : l.find? p = some r)
    (hp : ∀ w, p w = true →
      p { w with request_count := w.request_count + 1 } = true) :
    (incrFirst p l).find? p
      = some { r with request_count := r.request_count + 1 } := by
  induction l with
  | nil => simp at hfind
  | cons a l ih =>
    cases hpa : p a with
    | true =>
      rw [List.find?_cons_of_pos l hpa] at hfind
      have ha : a = r := by injection hfind
      subst ha
      simp only [incrFirst, if_pos hpa]
      exact List.find?_cons_of_pos _ (hp a hpa)
    | false =>
      rw [List.find?_cons_of_neg l (by simp [hpa])] at hfind
      simp only [incrFirst, if_neg (by simp [hpa] : ¬ p a = true)]
      rw [List.find?_cons_of_neg _ (by simp [hpa])]
      exact ih hfind

/-- An allowed `check_rate_limit` call with the limiter enabled commits an
increment of exactly one on the current window's count. -/
theorem allowed_increments_currentCount (cfg : RateConfig)
    (hE : cfg.enabled = true) (now : Nat) (st : List RateWindow) (ip : String)
    (hall : (check_rate_limit cfg now st ip "/parse").1.allowed = true) :
    currentCount now ip (check_rate_limit cfg now st ip "/parse").2
      = currentCount now ip st + 1 := by
  have hcc : currentCount now ip st
      = currentCount now ip (cleanupWindows now st) := by
    unfold currentCount
    rw [find?_cleanup_current]
  rcases hfind : (cleanupWindows now st).find?
      (windowKeyMatches ip "/parse" (truncHour now)) with _ | r
  · by_cases hl : 0 ≥ cfg.limit
    · simp [check_rate_limit, hE, hfind, hl] at hall
    · rw [show (check_rate_limit cfg now st ip "/parse").2
          = cleanupWindows now st ++ [⟨ip, "/parse", truncHour now, 1⟩] by
        simp [check_rate_limit, hE, hfind, hl]]
      rw [hcc]
      unfold currentCount
      rw [List.find?_append, hfind]
      simp [windowKeyMatches]
  · by_cases hrq : r.request_count ≥ cfg.limit
    · simp [check_rate_limit, hE, hfind, hrq] at hall
    · rw [show (check_rate_limit cfg now st ip "/parse").2
          = incrFirst (windowKeyMatches ip "/parse" (truncHour now))
              (cleanupWindows now st) by
        simp [check_rate_limit, hE, hfind, hrq]]
      rw [hcc]
      unfold currentCount
      rw [find?_incrFirst_of_find? hfind (fun w hw => hw), hfind]

/-- C9 (amended): with rate limiting enabled, a request the gate denies as
budget-exhausted has already consumed a rate-limit slot — the committed
count of the requester's current window is exactly one higher than before
the admission — whereas a denial at the blocklist or rate-limit stage
leaves the rate table entirely unchanged. -/
theorem budget_denial_consumes_rate_slot (cfg : GateConfig)
    (hE : cfg.rateCfg.enabled = true) (now : Nat) (st : GateState)
    (ip : String) :
    (∀ m, (require_rate_limit cfg now st ip).result = .deniedBudgetExhausted m →
      currentCount now ip (require_rate_limit cfg now st ip).state.rate
        = currentCount now ip st.rate + 1) ∧
    ((require_rate_limit cfg now st ip).result = .deniedBlocked →
      (require_rate_limit cfg now st ip).state.rate = st.rate) ∧
    (∀ ra, (require_rate_limit cfg now st ip).result = .deniedRateLimited ra →
      (require_rate_limit cfg now st ip).state.rate = st.rate) := by
  cases hb : (is_ip_blocked now st.blocklist ip).1 with
  | true => simp [require_rate_limit, hb]
  | false =>
    cases hr : (check_rate_limit cfg.rateCfg now st.rate ip "/parse").1.allowed with
    | false =>
      refine ⟨by simp [require_rate_limit, hb, hr], by simp [require_rate_limit, hb, hr], ?_⟩
      intro ra _
      simp only [require_rate_limit, hb, hr]
      simp
      exact check_rate_limit_deny_keeps_state cfg.rateCfg now st.rate ip "/parse" hr
    | true =>
      cases hd : (check_daily_budget cfg.budgetCfg st.usage).1 with
      | false =>
        refine ⟨?_, by simp [require_rate_limit, hb, hr, hd], by simp [require_rate_limit, hb, hr, hd]⟩
        intro m _
        simp only [require_rate_limit, hb, hr, hd]
        simp
        exact allowed_increments_currentCount cfg.rateCfg hE now st.rate ip hr
      | true => simp [require_rate_limit, hb, hr, hd]

/-- C9 counterexample: with the rate limiter disabled (the
`RATE_LIMIT_ENABLED` kill switch), the gate denies on budget while the rate
table stays empty — no slot was consumed. -/
theorem budget_denial_without_slot_when_disabled :
    (require_rate_limit ⟨⟨false, 20⟩, defaultBudgetConfig⟩ 0
        ⟨[], [], some ⟨3, 5, 7⟩⟩ "203.0.113.7").result
      = .deniedBudgetExhausted (budgetExceededMessage 5) ∧
    (require_rate_limit ⟨⟨false, 20⟩, defaultBudgetConfig⟩ 0
        ⟨[], [], some ⟨3, 5, 7⟩⟩ "203.0.113.7").state.rate = [] ∧
    currentCount 0 "203.0.113.7"
        (require_rate_limit ⟨⟨false, 20⟩, defaultBudgetConfig⟩ 0
          ⟨[], [], some ⟨3, 5, 7⟩⟩ "203.0.113.7").state.rate
      = currentCount 0 "203.0.113.7" [] := by
  have hcheck : check_daily_budget defaultBudgetConfig (some ⟨3, 5, 7⟩)
      = (false, budgetExceededMessage 5) := by
    simp [check_daily_budget, defaultBudgetConfig]
  refine ⟨?_, ?_, ?_⟩ <;>
    simp [require_rate_limit, is_ip_blocked, check_rate_limit, hcheck,
      currentCount]

/-- Witness for C9's amended theorem: rate limiting enabled, budget already
exhausted — the budget denial leaves a committed count of one. -/
theorem budget_denial_consumes_rate_slot_witness :
    currentCount 0 "203.0.113.7"
        (require_rate_limit ⟨⟨true, 20⟩, defaultBudgetConfig⟩ 0
          ⟨[], [], some ⟨3, 5, 7⟩⟩ "203.0.113.7").state.rate
      = currentCount 0 "203.0.113.7" ([] : List RateWindow) + 1 := by
  have h := budget_denial_consumes_rate_slot ⟨⟨true, 20⟩, defaultBudgetConfig⟩
    rfl 0 ⟨[], [], some ⟨3, 5, 7⟩⟩ "203.0.113.7"
  refine h.1 (budgetExceededMessage 5) ?_
  have hcheck : check_daily_budget defaultBudgetConfig (some ⟨3, 5, 7⟩)
      = (false, budgetExceededMessage 5) := by
    simp [check_daily_budget, defaultBudgetConfig]
  simp [require_rate_limit, is_ip_blocked, check_rate_limit, cleanupWindows,
    hcheck]

end DishList
